import Mathlib

/-!
Verification of `carris_gtfs_saver.py`: a shallow embedding of the
download / hash / compare / upload pipeline, together with theorems about
the claims of the specification.

Conventions of the embedding:
* bytes are `Fin 256` values, byte sequences are `List (Fin 256)`;
* the object store is an association list from keys to text contents;
* the S3 client's `head_object` is modelled as a function returning either
  success or a `ClientError` with a string error code;
* fallible Python code is modelled with `Except`, `sys.exit` with a numeric
  exit code in the result of `mainRun`;
* the wall clock (`datetime.now().strftime(...)`) is an injected string.
-/

/-! ### Decimal digits: injectivity of `Nat.repr`

The collision loop of `generate_unique_s3_key` appends `str(counter)` to the
candidate key.  To prove that the loop terminates on a finite store we need
that distinct counters give distinct keys, hence injectivity of the decimal
rendering of naturals. -/

/-- Numeric value of a decimal digit character. -/
def decDigit (c : Char) : Nat := c.toNat - 48

/-- Decode a list of decimal digit characters, most significant first. -/
def decDigits (l : List Char) : Nat := l.foldl (fun a c => a * 10 + decDigit c) 0

lemma toDigitsCore_succ (fuel n : Nat) (acc : List Char) :
    Nat.toDigitsCore 10 (fuel + 1) n acc =
      if n / 10 = 0 then Nat.digitChar (n % 10) :: acc
      else Nat.toDigitsCore 10 fuel (n / 10) (Nat.digitChar (n % 10) :: acc) := rfl

lemma toDigitsCore_eq_toDigits_append (n : Nat) :
    ∀ fuel acc, 0 < fuel → n < 10 ^ fuel →
      Nat.toDigitsCore 10 fuel n acc = Nat.toDigits 10 n ++ acc := by
  induction n using Nat.strong_induction_on with
  | _ n ih =>
    intro fuel acc hf hlt
    obtain ⟨f, rfl⟩ : ∃ f, fuel = f + 1 := ⟨fuel - 1, by omega⟩
    by_cases h0 : n / 10 = 0
    · have hn : n < 10 := (Nat.div_eq_zero_iff (by omega)).mp h0
      simp [Nat.toDigits, toDigitsCore_succ, h0]
    · have hn10 : 10 ≤ n := by
        rcases Nat.lt_or_ge n 10 with h | h
        · exact absurd (Nat.div_eq_of_lt h) h0
        · exact h
      have hfpos : 0 < f := by
        rcases Nat.eq_zero_or_pos f with rfl | h
        · simp at hlt; omega
        · exact h
      have hdivlt : n / 10 < 10 ^ f := by
        have hmul : n < 10 ^ f * 10 := by
          have := hlt
          rw [pow_succ] at this
          exact this
        exact Nat.div_lt_of_lt_mul (by omega)
      have hdn : n / 10 < n := Nat.div_lt_self (by omega) (by omega)
      have hselflt : n / 10 < 10 ^ n :=
        lt_of_lt_of_le hdn (Nat.le_of_lt (Nat.lt_pow_self (by omega) n))
      have lhs : Nat.toDigitsCore 10 (f + 1) n acc =
          Nat.toDigitsCore 10 f (n / 10) (Nat.digitChar (n % 10) :: acc) := by
        rw [toDigitsCore_succ, if_neg h0]
      have rhs : Nat.toDigits 10 n =
          Nat.toDigitsCore 10 n (n / 10) [Nat.digitChar (n % 10)] := by
        obtain ⟨m, hm⟩ : ∃ m, n = m + 1 := ⟨n - 1, by omega⟩
        conv_lhs => rw [Nat.toDigits, hm]
        rw [toDigitsCore_succ, if_neg (hm ▸ h0), ← hm]
      rw [lhs, rhs,
        ih (n / 10) hdn f (Nat.digitChar (n % 10) :: acc) hfpos hdivlt,
        ih (n / 10) hdn n [Nat.digitChar (n % 10)] (by omega) hselflt,
        List.append_assoc]
      rfl

lemma toDigits_unfold (n : Nat) :
    Nat.toDigits 10 n =
      if n < 10 then [Nat.digitChar n]
      else Nat.toDigits 10 (n / 10) ++ [Nat.digitChar (n % 10)] := by
  by_cases h : n < 10
  · have h0 : n / 10 = 0 := Nat.div_eq_of_lt h
    have hmod : n % 10 = n := Nat.mod_eq_of_lt h
    simp [Nat.toDigits, toDigitsCore_succ, h0, hmod, h]
  · have h0 : ¬ n / 10 = 0 := by
      intro hc
      exact h ((Nat.div_eq_zero_iff (by omega)).mp hc)
    have hrec : Nat.toDigits 10 n =
        Nat.toDigitsCore 10 n (n / 10) [Nat.digitChar (n % 10)] := by
      obtain ⟨m, hm⟩ : ∃ m, n = m + 1 := ⟨n - 1, by omega⟩
      conv_lhs => rw [Nat.toDigits, hm]
      rw [toDigitsCore_succ, if_neg (hm ▸ h0), ← hm]
    have hdn : n / 10 < n := Nat.div_lt_self (by omega) (by omega)
    have hselflt : n / 10 < 10 ^ n :=
      lt_of_lt_of_le hdn (Nat.le_of_lt (Nat.lt_pow_self (by omega) n))
    rw [hrec, toDigitsCore_eq_toDigits_append (n / 10) n [Nat.digitChar (n % 10)]
      (by omega) hselflt]
    simp [h]

lemma decDigit_digitChar (n : Nat) (h : n < 10) :
    decDigit (Nat.digitChar n) = n := by
  interval_cases n <;> rfl

lemma decDigits_toDigits (n : Nat) : decDigits (Nat.toDigits 10 n) = n := by
  induction n using Nat.strong_induction_on with
  | _ n ih =>
    rw [toDigits_unfold]
    by_cases h : n < 10
    · simp only [h, if_true]
      simpa [decDigits] using decDigit_digitChar n h
    · have hdn : n / 10 < n := Nat.div_lt_self (by omega) (by omega)
      simp only [h, if_false]
      have : decDigits (Nat.toDigits 10 (n / 10) ++ [Nat.digitChar (n % 10)]) =
          decDigits (Nat.toDigits 10 (n / 10)) * 10 + decDigit (Nat.digitChar (n % 10)) := by
        simp [decDigits, List.foldl_append]
      rw [this, ih (n / 10) hdn, decDigit_digitChar (n % 10) (Nat.mod_lt n (by omega))]
      omega

lemma Nat.repr_injective : Function.Injective Nat.repr := by
  intro m n h
  have hdata : (Nat.toDigits 10 m) = (Nat.toDigits 10 n) := by
    have := congrArg String.data h
    simpa [Nat.repr, List.asString] using this
  have := congrArg decDigits hdata
  simpa [decDigits_toDigits] using this

/-! ### ContentFingerprint: SHA-256

`calculate_file_hash` streams the file through `hashlib.sha256` and returns
the lowercase hex digest.  `hashlib` is an external library (not part of the
repository's source), so the digest itself is embedded here as the standard
SHA-256 algorithm (FIPS 180-4): padding, 64-round compression over 512-bit
blocks, big-endian word encoding, lowercase hexadecimal rendering.
Machine words are `Nat` reduced modulo `2 ^ 32` wherever overflow matters. -/

/-- A byte, as stored in files and uploaded to the object store. -/
abbrev Byte := Fin 256

/-- Right rotation of a 32-bit word. -/
def rotr32 (x n : Nat) : Nat := ((x >>> n) ||| (x <<< (32 - n))) % 4294967296

def bSig0 (x : Nat) : Nat := (rotr32 x 2) ^^^ (rotr32 x 13) ^^^ (rotr32 x 22)

def bSig1 (x : Nat) : Nat := (rotr32 x 6) ^^^ (rotr32 x 11) ^^^ (rotr32 x 25)

def sSig0 (x : Nat) : Nat := (rotr32 x 7) ^^^ (rotr32 x 18) ^^^ (x >>> 3)

def sSig1 (x : Nat) : Nat := (rotr32 x 17) ^^^ (rotr32 x 19) ^^^ (x >>> 10)

def chF (e f g : Nat) : Nat := (e &&& f) ^^^ ((e ^^^ 4294967295) &&& g)

def majF (a b c : Nat) : Nat := (a &&& b) ^^^ (a &&& c) ^^^ (b &&& c)

/-- The 64 SHA-256 round constants. -/
def sha256K : List Nat :=
  [1116352408, 1899447441, 3049323471, 3921009573, 961987163, 1508970993,
   2453635748, 2870763221, 3624381080, 310598401, 607225278, 1426881987,
   1925078388, 2162078206, 2614888103, 3248222580, 3835390401, 4022224774,
   264347078, 604807628, 770255983, 1249150122, 1555081692, 1996064986,
   2554220882, 2821834349, 2952996808, 3210313671, 3336571891, 3584528711,
   113926993, 338241895, 666307205, 773529912, 1294757372, 1396182291,
   1695183700, 1986661051, 2177026350, 2456956037, 2730485921, 2820302411,
   3259730800, 3345764771, 3516065817, 3600352804, 4094571909, 275423344,
   430227734, 506948616, 659060556, 883997877, 958139571, 1322822218,
   1537002063, 1747873779, 1955562222, 2024104815, 2227730452, 2361852424,
   2428436474, 2756734187, 3204031479, 3329325298]

def natByte (x : Nat) : Byte := ⟨x % 256, Nat.mod_lt _ (by norm_num)⟩

/-- SHA-256 message padding: a `0x80` byte, zeros to 56 mod 64, then the
bit length as a 64-bit big-endian integer. -/
def sha256pad (msg : List Byte) : List Byte :=
  let L := msg.length
  let zeros := (119 - L % 64) % 64
  let bitLen := (8 * L) % 18446744073709551616
  msg ++ [(128 : Byte)] ++ List.replicate zeros (0 : Byte) ++
    [natByte (bitLen >>> 56), natByte (bitLen >>> 48), natByte (bitLen >>> 40),
     natByte (bitLen >>> 32), natByte (bitLen >>> 24), natByte (bitLen >>> 16),
     natByte (bitLen >>> 8), natByte bitLen]

def toBlocksAux : Nat → List Byte → List (List Byte)
  | 0, _ => []
  | _, [] => []
  | fuel + 1, l => l.take 64 :: toBlocksAux fuel (l.drop 64)

/-- Split a byte list into 64-byte blocks.  The fuel argument of the
auxiliary function only bounds the recursion depth; one unit per byte is
always enough since every step consumes 64 bytes. -/
def toBlocks (l : List Byte) : List (List Byte) := toBlocksAux l.length l

/-- Big-endian 32-bit word starting at byte `4 * i` of a block. -/
def wordAt (block : List Byte) (i : Nat) : Nat :=
  ((block.getD (4 * i) 0).val <<< 24) + ((block.getD (4 * i + 1) 0).val <<< 16) +
    ((block.getD (4 * i + 2) 0).val <<< 8) + (block.getD (4 * i + 3) 0).val

def blockWords (block : List Byte) : List Nat := (List.range 16).map (wordAt block)

def scheduleStep (w : List Nat) : List Nat :=
  let t := w.length
  w ++ [(w.getD (t - 16) 0 + sSig0 (w.getD (t - 15) 0) + w.getD (t - 7) 0 +
          sSig1 (w.getD (t - 2) 0)) % 4294967296]

/-- The 64-entry message schedule of a block. -/
def sha256schedule (block : List Byte) : List Nat :=
  (List.range 48).foldl (fun w _ => scheduleStep w) (blockWords block)

/-- The eight 32-bit working variables of SHA-256. -/
structure Sha256State where
  h0 : Nat
  h1 : Nat
  h2 : Nat
  h3 : Nat
  h4 : Nat
  h5 : Nat
  h6 : Nat
  h7 : Nat

def sha256round (s : Sha256State) (kw : Nat × Nat) : Sha256State :=
  let t1 := (s.h7 + bSig1 s.h4 + chF s.h4 s.h5 s.h6 + kw.1 + kw.2) % 4294967296
  let t2 := (bSig0 s.h0 + majF s.h0 s.h1 s.h2) % 4294967296
  { h0 := (t1 + t2) % 4294967296, h1 := s.h0, h2 := s.h1, h3 := s.h2,
    h4 := (s.h3 + t1) % 4294967296, h5 := s.h4, h6 := s.h5, h7 := s.h6 }

def sha256compress (s : Sha256State) (block : List Byte) : Sha256State :=
  let r := (sha256K.zip (sha256schedule block)).foldl sha256round s
  { h0 := (s.h0 + r.h0) % 4294967296, h1 := (s.h1 + r.h1) % 4294967296,
    h2 := (s.h2 + r.h2) % 4294967296, h3 := (s.h3 + r.h3) % 4294967296,
    h4 := (s.h4 + r.h4) % 4294967296, h5 := (s.h5 + r.h5) % 4294967296,
    h6 := (s.h6 + r.h6) % 4294967296, h7 := (s.h7 + r.h7) % 4294967296 }

def sha256initState : Sha256State :=
  ⟨1779033703, 3144134277, 1013904242, 2773480762,
   1359893119, 2600822924, 528734635, 1541459225⟩

/-- Big-endian bytes of a 32-bit word. -/
def wordBytes (w : Nat) : List Nat :=
  [(w >>> 24) % 256, (w >>> 16) % 256, (w >>> 8) % 256, w % 256]

/-- SHA-256 digest of a byte sequence, as a list of 32 byte values. -/
def sha256bytes (msg : List Byte) : List Nat :=
  let s := (toBlocks (sha256pad msg)).foldl sha256compress sha256initState
  wordBytes s.h0 ++ wordBytes s.h1 ++ wordBytes s.h2 ++ wordBytes s.h3 ++
    wordBytes s.h4 ++ wordBytes s.h5 ++ wordBytes s.h6 ++ wordBytes s.h7

def hexDigitChars : List Char := "0123456789abcdef".data

/-- Two lowercase hex characters of a byte value. -/
def byteHex (b : Nat) : List Char :=
  [hexDigitChars.getD (b / 16) '0', hexDigitChars.getD (b % 16) '0']

/-- `calculate_file_hash`: SHA-256 lowercase hex digest of the file's
contents (the source reads the file in 4096-byte chunks; streaming a hash
over chunks of the contents equals hashing the whole contents, so the
embedding takes the byte sequence directly). -/
def calculate_file_hash (contents : List Byte) : String :=
  String.mk (((sha256bytes contents).map byteHex).join)

/-! ### String helpers used by the source -/

/-- Python's `str.strip()`: remove leading and trailing whitespace. -/
def pyStrip (s : String) : String :=
  String.mk (((s.data.dropWhile Char.isWhitespace).reverse.dropWhile
    Char.isWhitespace).reverse)

/-- Python's `s.rsplit(sep, 1)` on a list of characters: split at the
rightmost occurrence of `sep`, `none` when `sep` does not occur. -/
def rsplitList (sep : Char) : List Char → Option (List Char × List Char)
  | [] => none
  | c :: cs =>
    match rsplitList sep cs with
    | some (l, r) => some (c :: l, r)
    | none => if c = sep then some ([], cs) else none

/-- Python's `s.rsplit(sep, 1)` limited to one split: `some (left, right)`
when `sep` occurs, `none` otherwise (Python then returns `[s]`). -/
def rsplit1 (sep : Char) (s : String) : Option (String × String) :=
  (rsplitList sep s.data).map (fun p => (String.mk p.1, String.mk p.2))

/-! ### BlobStore and the S3 client -/

/-- The object store: an association list from keys to text contents.
Artifact objects' contents are the uploaded bytes rendered as characters;
the fingerprint object's content is the stored digest text. -/
abbrev Store := List (String × String)

def lookupObj (s : Store) (k : String) : Option String :=
  (s.find? (fun p => p.1 = k)).map (fun p => p.2)

def putObj (s : Store) (k v : String) : Store :=
  (k, v) :: s.filter (fun p => ¬ p.1 = k)

def storeKeys (s : Store) : List String := s.map (fun p => p.1)

def storeHasKey (s : Store) (k : String) : Bool := (storeKeys s).contains k

/-- Result of `s3_client.head_object`: success, or a `ClientError`
carrying the error response code. -/
inductive HeadResult where
  | ok : HeadResult
  | clientError (code : String) : HeadResult
deriving DecidableEq

/-- The `head_object` behaviour of a store backend with no faults: success
when the key is present, a 404 `ClientError` when it is absent. -/
def headOfStore (s : Store) (key : String) : HeadResult :=
  if storeHasKey s key then .ok else .clientError "404"

/-- `check_s3_file_exists`: `head_object` succeeding means the file exists;
a `ClientError` with code `404` means it does not; any other `ClientError`
is re-raised. -/
def check_s3_file_exists (head : String → HeadResult) (s3_key : String) :
    Except String Bool :=
  match head s3_key with
  | .ok => .ok true
  | .clientError code => if code = "404" then .ok false else .error code

/-- `get_remote_hash`: read the fingerprint object and strip the text;
a `NoSuchKey` error yields `none` ("no previous hash"); any other
`ClientError` (modelled by the `fails` flag) is re-raised. -/
def get_remote_hash (store : Store) (hash_key : String) (fails : Bool) :
    Except String (Option String) :=
  if fails then .error "ClientError"
  else
    match lookupObj store hash_key with
    | some body => .ok (some (pyStrip body))
    | none => .ok none

/-! ### KeyAllocator: `generate_unique_s3_key` -/

/-- Candidate keys tried by `generate_unique_s3_key`: the original key is
split at the last `/` into prefix and filename, the filename at the last
`.` into stem and extension, and `_<timestamp>` (plus `_<counter>` when a
counter is used) is inserted before the extension. -/
def mkCandidate (original_key ts : String) (counter : Option Nat) : String :=
  let (pfx, filename) :=
    match rsplit1 '/' original_key with
    | some (p, f) => (p, f)
    | none => ("", original_key)
  let nm :=
    match rsplit1 '.' filename, counter with
    | some (st, ex), none => st ++ "_" ++ ts ++ "." ++ ex
    | some (st, ex), some c => st ++ "_" ++ ts ++ "_" ++ Nat.repr c ++ "." ++ ex
    | none, none => filename ++ "_" ++ ts
    | none, some c => filename ++ "_" ++ ts ++ "_" ++ Nat.repr c
  if pfx = "" then nm else pfx ++ "/" ++ nm

/-- The `while True` counter loop of `generate_unique_s3_key`, with an
explicit recursion bound standing for the unbounded Python loop: `none`
means the bound was exhausted before a free key was found. -/
def counterLoop (head : String → HeadResult) (original_key ts : String)
    (c : Nat) : Nat → Option (Except String String)
  | 0 => none
  | fuel + 1 =>
    match check_s3_file_exists head (mkCandidate original_key ts (some c)) with
    | .error e => some (.error e)
    | .ok false => some (.ok (mkCandidate original_key ts (some c)))
    | .ok true => counterLoop head original_key ts (c + 1) fuel

/-- `generate_unique_s3_key`: return the original key if free; otherwise a
timestamped candidate; if that also exists, counter-suffixed candidates
starting at counter 1.  `head` is the S3 client's `head_object`, `ts` the
wall-clock timestamp string, `fuel` the bound for the counter loop. -/
def generate_unique_s3_key (head : String → HeadResult) (original_key ts : String)
    (fuel : Nat) : Option (Except String String) :=
  match check_s3_file_exists head original_key with
  | .error e => some (.error e)
  | .ok false => some (.ok original_key)
  | .ok true =>
    let new_key := mkCandidate original_key ts none
    match check_s3_file_exists head new_key with
    | .error e => some (.error e)
    | .ok false => some (.ok new_key)
    | .ok true => counterLoop head original_key ts 1 fuel

/-- Total allocator against a fault-free finite store, as invoked by
`main`.  `storeKeys store |>.length + 1` units of fuel always suffice
(theorem `generate_s3_key_total`), so the fallback branch is unreachable. -/
def generate_unique_s3_key_run (store : Store) (original_key ts : String) : String :=
  match generate_unique_s3_key (headOfStore store) original_key ts
      ((storeKeys store).length + 1) with
  | some (.ok k) => k
  | _ => original_key

/-! ### SyncOrchestrator: `main` -/

/-- The `gtfs/` key namespace (`S3_PREFIX` in the source). -/
def s3Pfx : String := "gtfs/"

/-- `LOCAL_GTFS_FILE`, the fixed default name of the transient local file. -/
def LOCAL_GTFS_FILE : String := "GTFS_Carris.zip"

/-- Environment-sourced configuration
(`GTFS_URL`, `S3_*` variables; absent variables read as `""`). -/
structure Config where
  gtfsUrl : String
  s3EndpointUrl : String
  s3AccessKeyId : String
  s3SecretAccessKey : String
  s3BucketName : String
deriving DecidableEq

/-- Outcome of `download_gtfs_file`.  `ok` returns the written filename (the
default, or one extracted from the `Content-Disposition` header) and the
downloaded bytes.  `failEarly` is a failure before the output file is opened
(connection error or a non-success HTTP status).  `failAfterCreate` is a
failure while streaming the response body: the output file has already been
created at `filename` but the exception propagates, so the function never
returns the filename. -/
inductive DownloadResult where
  | ok (filename : String) (contents : List Byte)
  | failEarly
  | failAfterCreate (filename : String)
deriving DecidableEq

/-- One run's external circumstances: the configuration, how the download
goes, the wall-clock timestamp, and injected store faults (`getHashFails`:
`get_object` on the fingerprint raises a non-`NoSuchKey` `ClientError`;
`uploadFails`: `upload_file` raises; `saveHashFails`: `put_object` raises). -/
structure Env where
  config : Config
  download : DownloadResult
  timestamp : String
  getHashFails : Bool
  uploadFails : Bool
  saveHashFails : Bool

/-- Mutable world state of a run: the object store and the names of the
files present in the local working directory. -/
structure World where
  store : Store
  localFiles : List String
deriving DecidableEq

/-- Observable calls of a run, in order: the network fetch, S3 reads
(`get_object`, the first `head_object` of key allocation), S3 writes
(`uploadCall`/`putHashCall` are the invocations of `upload_file` /
`put_object`, `uploadDone`/`putHashDone` their successful completions), and
local file removal. -/
inductive Event where
  | fetch
  | getObjectCall (key : String)
  | headObjectCall (key : String)
  | uploadCall (key : String)
  | uploadDone (key : String)
  | putHashCall (key : String)
  | putHashDone (key : String)
  | removeLocal (name : String)
deriving DecidableEq

/-- `cleanup_local_file`: remove the local file if it exists. -/
def cleanup_local_file (files : List String) (name : String) : List String :=
  files.filter (fun f => ¬ f = name)

/-- Render uploaded bytes as store content (the artifact objects' contents
are never read back by the program). -/
def bytesToStr (b : List Byte) : String :=
  String.mk (b.map (fun x => Char.ofNat x.val))

/-- `upload_to_s3`: write the local file's bytes at the given key. -/
def upload_to_s3 (store : Store) (s3_key : String) (contents : List Byte) : Store :=
  putObj store s3_key (bytesToStr contents)

/-- `save_hash_to_s3`: write the digest text at the fingerprint key. -/
def save_hash_to_s3 (store : Store) (hash_key hash_value : String) : Store :=
  putObj store hash_key hash_value

/-- `main`: validate configuration, download, hash, compare with the remote
fingerprint, and either skip or allocate a key, upload and record the new
fingerprint; clean up the local file on the paths where `local_file` is in
scope.  Returns the final world, the trace of observable calls, and the
process exit code. -/
def mainRun (env : Env) (w : World) : World × List Event × Nat :=
  if env.config.s3BucketName = "" then (w, [], 1)
  else if ¬ env.config.s3EndpointUrl = "" ∧
      ¬ (¬ env.config.s3AccessKeyId = "" ∧ ¬ env.config.s3SecretAccessKey = "") then
    (w, [], 1)
  else if env.config.gtfsUrl = "" then (w, [], 1)
  else
    match env.download with
    | .failEarly => (w, [.fetch], 1)
    | .failAfterCreate fn =>
      -- the exception propagates before `local_file` is assigned, so the
      -- `except` block of `main` does not remove the created file
      ({ w with localFiles := fn :: w.localFiles }, [.fetch], 1)
    | .ok fn contents =>
      let w1 : World := { w with localFiles := fn :: w.localFiles }
      let s3GtfsKey := s3Pfx ++ fn
      let s3HashKey := s3Pfx ++ "hash.txt"
      let localHash := calculate_file_hash contents
      match get_remote_hash w1.store s3HashKey env.getHashFails with
      | .error _ =>
        ({ w1 with localFiles := cleanup_local_file w1.localFiles fn },
         [.fetch, .getObjectCall s3HashKey, .removeLocal fn], 1)
      | .ok remoteHash =>
        if remoteHash = some localHash then
          ({ w1 with localFiles := cleanup_local_file w1.localFiles fn },
           [.fetch, .getObjectCall s3HashKey, .removeLocal fn], 0)
        else
          let finalKey := generate_unique_s3_key_run w1.store s3GtfsKey env.timestamp
          let t0 : List Event := [.fetch, .getObjectCall s3HashKey, .headObjectCall s3GtfsKey]
          if env.uploadFails then
            ({ w1 with localFiles := cleanup_local_file w1.localFiles fn },
             t0 ++ [.uploadCall finalKey, .removeLocal fn], 1)
          else
            let w2 : World := { w1 with store := upload_to_s3 w1.store finalKey contents }
            if env.saveHashFails then
              ({ w2 with localFiles := cleanup_local_file w2.localFiles fn },
               t0 ++ [.uploadCall finalKey, .uploadDone finalKey,
                      .putHashCall s3HashKey, .removeLocal fn], 1)
            else
              let w3 : World := { w2 with store := save_hash_to_s3 w2.store s3HashKey localHash }
              ({ w3 with localFiles := cleanup_local_file w3.localFiles fn },
               t0 ++ [.uploadCall finalKey, .uploadDone finalKey,
                      .putHashCall s3HashKey, .putHashDone s3HashKey, .removeLocal fn], 0)

/-! ### KeyAllocator lemmas -/

lemma strAppend_left_cancel {A x y : String} (h : A ++ x = A ++ y) : x = y := by
  apply String.ext
  have := congrArg String.data h
  simp only [String.data_append] at this
  exact List.append_cancel_left this

lemma strAppend_right_cancel {B x y : String} (h : x ++ B = y ++ B) : x = y := by
  apply String.ext
  have := congrArg String.data h
  simp only [String.data_append] at this
  exact List.append_cancel_right this

/-- Distinct counters give distinct candidate keys. -/
lemma mkCandidate_counter_injective (original_key ts : String) {c c' : Nat}
    (h : mkCandidate original_key ts (some c) = mkCandidate original_key ts (some c')) :
    c = c' := by
  unfold mkCandidate at h
  rcases hsp : rsplit1 '/' original_key with _ | ⟨p, f⟩ <;>
    simp only [hsp] at h <;>
    [skip; by_cases hp : p = ""] <;>
    [skip; simp only [hp, if_true] at h; simp only [hp, if_false] at h] <;>
    [rcases hdot : rsplit1 '.' original_key with _ | ⟨st, ex⟩;
     rcases hdot : rsplit1 '.' f with _ | ⟨st, ex⟩;
     rcases hdot : rsplit1 '.' f with _ | ⟨st, ex⟩] <;>
    simp only [hdot] at h
  · exact Nat.repr_injective (strAppend_left_cancel h)
  · exact Nat.repr_injective
      (strAppend_left_cancel (strAppend_right_cancel (strAppend_right_cancel h)))
  · exact Nat.repr_injective (strAppend_left_cancel h)
  · exact Nat.repr_injective
      (strAppend_left_cancel (strAppend_right_cancel (strAppend_right_cancel h)))
  · exact Nat.repr_injective (strAppend_left_cancel (strAppend_left_cancel h))
  · exact Nat.repr_injective (strAppend_left_cancel
      (strAppend_right_cancel (strAppend_right_cancel (strAppend_left_cancel h))))

lemma check_headOfStore (s : Store) (k : String) :
    check_s3_file_exists (headOfStore s) k = .ok (storeHasKey s k) := by
  unfold check_s3_file_exists headOfStore
  by_cases h : storeHasKey s k <;> simp [h]

lemma counterLoop_succ (head : String → HeadResult) (key ts : String) (c f : Nat) :
    counterLoop head key ts c (f + 1) =
      match check_s3_file_exists head (mkCandidate key ts (some c)) with
      | .error e => some (.error e)
      | .ok false => some (.ok (mkCandidate key ts (some c)))
      | .ok true => counterLoop head key ts (c + 1) f := rfl

/-- Partial correctness of the counter loop over a fault-free store: a
returned key is the first free counter candidate. -/
lemma counterLoop_store (s : Store) (key ts : String) :
    ∀ fuel c r, counterLoop (headOfStore s) key ts c fuel = some r →
      ∃ i, i < fuel ∧ r = .ok (mkCandidate key ts (some (c + i))) ∧
        storeHasKey s (mkCandidate key ts (some (c + i))) = false ∧
        ∀ j, j < i → storeHasKey s (mkCandidate key ts (some (c + j))) = true := by
  intro fuel
  induction fuel with
  | zero => intro c r h; simp [counterLoop] at h
  | succ f ih =>
    intro c r h
    rw [counterLoop_succ, check_headOfStore] at h
    by_cases hc : storeHasKey s (mkCandidate key ts (some c))
    · rw [hc] at h
      simp only at h
      obtain ⟨i, hif, hr, hfree, hprev⟩ := ih (c + 1) r h
      refine ⟨i + 1, by omega, ?_, ?_, ?_⟩
      · have he : c + 1 + i = c + (i + 1) := by omega
        rw [← he]; exact hr
      · have he : c + 1 + i = c + (i + 1) := by omega
        rw [← he]; exact hfree
      · intro j hj
        match j, hj with
        | 0, _ => simpa using hc
        | j' + 1, hj =>
          have he : c + (j' + 1) = c + 1 + j' := by omega
          rw [he]
          exact hprev j' (by omega)
    · rw [Bool.eq_false_iff.mpr hc] at h
      simp only at h
      refine ⟨0, by omega, ?_, ?_, ?_⟩
      · simpa using h.symm
      · simpa using Bool.eq_false_iff.mpr hc
      · intro j hj; omega
  
/-- The counter loop finds a key as soon as some candidate within the fuel
bound is free. -/
lemma counterLoop_total (s : Store) (key ts : String) :
    ∀ fuel c,
      (∃ i, i < fuel ∧ storeHasKey s (mkCandidate key ts (some (c + i))) = false) →
      ∃ r, counterLoop (headOfStore s) key ts c fuel = some r := by
  intro fuel
  induction fuel with
  | zero => intro c ⟨i, hif, _⟩; omega
  | succ f ih =>
    intro c ⟨i, hif, hfree⟩
    rw [counterLoop_succ, check_headOfStore]
    by_cases hc : storeHasKey s (mkCandidate key ts (some c))
    · rw [hc]
      simp only
      apply ih (c + 1)
      have hi0 : ¬ i = 0 := by
        intro h0
        rw [h0, Nat.add_zero, hc] at hfree
        simp at hfree
      refine ⟨i - 1, by omega, ?_⟩
      have he : c + 1 + (i - 1) = c + i := by omega
      rw [he]
      exact hfree
    · rw [Bool.eq_false_iff.mpr hc]
      exact ⟨_, rfl⟩

/-- Pigeonhole: on a finite store, among the first `length + 1` counter
candidates at least one key is free. -/
lemma exists_free_counter (s : Store) (key ts : String) :
    ∃ i, i < (storeKeys s).length + 1 ∧
      storeHasKey s (mkCandidate key ts (some (1 + i))) = false := by
  by_contra hall
  push_neg at hall
  have hmem : ∀ i : Fin ((storeKeys s).length + 1),
      mkCandidate key ts (some (1 + i.val)) ∈ (storeKeys s).toFinset := by
    intro i
    have hne := hall i.val i.isLt
    have hb : storeHasKey s (mkCandidate key ts (some (1 + i.val))) = true := by
      cases h : storeHasKey s (mkCandidate key ts (some (1 + i.val)))
      · exact absurd h hne
      · rfl
    rw [List.mem_toFinset]
    simpa [storeHasKey, List.contains_eq_any_beq, List.any_eq_true,
      eq_comm] using hb
  have hinj : Function.Injective
      (fun i : Fin ((storeKeys s).length + 1) =>
        (⟨mkCandidate key ts (some (1 + i.val)), hmem i⟩ :
          { x // x ∈ (storeKeys s).toFinset })) := by
    intro i j hij
    have := congrArg Subtype.val hij
    simp only at this
    have := mkCandidate_counter_injective key ts this
    exact Fin.ext (by omega)
  have hcard := Fintype.card_le_of_injective _ hinj
  rw [Fintype.card_coe, Fintype.card_fin] at hcard
  have hle := List.toFinset_card_le (storeKeys s)
  omega

/-- Totality of the allocator against a fault-free finite store:
`length + 1` units of fuel always produce a free key. -/
lemma generate_s3_key_total (s : Store) (key ts : String) :
    ∃ k, generate_unique_s3_key (headOfStore s) key ts ((storeKeys s).length + 1) =
        some (.ok k) ∧ storeHasKey s k = false := by
  unfold generate_unique_s3_key
  rw [check_headOfStore]
  by_cases h1 : storeHasKey s key
  · rw [h1]
    simp only
    rw [check_headOfStore]
    by_cases h2 : storeHasKey s (mkCandidate key ts none)
    · rw [h2]
      simp only
      obtain ⟨i, hif, hfree⟩ := exists_free_counter s key ts
      obtain ⟨r, hr⟩ := counterLoop_total s key ts ((storeKeys s).length + 1) 1
        ⟨i, hif, hfree⟩
      obtain ⟨j, _, hrq, hfree2, _⟩ := counterLoop_store s key ts _ _ _ hr
      exact ⟨mkCandidate key ts (some (1 + j)), by rw [hr, hrq], hfree2⟩
    · rw [Bool.eq_false_iff.mpr h2]
      exact ⟨mkCandidate key ts none, rfl, Bool.eq_false_iff.mpr h2⟩
  · rw [Bool.eq_false_iff.mpr h1]
    exact ⟨key, rfl, Bool.eq_false_iff.mpr h1⟩

/-! ### Claim theorems -/

/-- Claim C1: for every store state and desired key, the key returned by
`generate_unique_s3_key` is one for which the store's existence check
returns false at call time; the allocation only ever reads the store
through `head_object` (its only store capability in this embedding), so it
deletes or overwrites nothing; and the candidate order is: the desired key
if free, else the timestamp-suffixed candidate, else the first free
counter-suffixed candidate starting at counter 1. -/
theorem keyAllocator_returns_free_key (store : Store) (key ts : String) :
    check_s3_file_exists (headOfStore store)
        (generate_unique_s3_key_run store key ts) = .ok false ∧
    (storeHasKey store key = false → generate_unique_s3_key_run store key ts = key) ∧
    (storeHasKey store key = true →
      storeHasKey store (mkCandidate key ts none) = false →
      generate_unique_s3_key_run store key ts = mkCandidate key ts none) ∧
    (storeHasKey store key = true →
      storeHasKey store (mkCandidate key ts none) = true →
      ∃ c, 1 ≤ c ∧
        generate_unique_s3_key_run store key ts = mkCandidate key ts (some c) ∧
        ∀ c', 1 ≤ c' → c' < c →
          storeHasKey store (mkCandidate key ts (some c')) = true) := by
  obtain ⟨k, hk, hfree⟩ := generate_s3_key_total store key ts
  have hrun : generate_unique_s3_key_run store key ts = k := by
    unfold generate_unique_s3_key_run
    rw [hk]
  refine ⟨?_, ?_, ?_, ?_⟩
  · rw [hrun, check_headOfStore, hfree]
  · intro h1
    unfold generate_unique_s3_key at hk
    rw [check_headOfStore, h1] at hk
    simp only [Option.some.injEq, Except.ok.injEq] at hk
    rw [hrun, ← hk]
  · intro h1 h2
    unfold generate_unique_s3_key at hk
    rw [check_headOfStore, h1] at hk
    simp only at hk
    rw [check_headOfStore, h2] at hk
    simp only [Option.some.injEq, Except.ok.injEq] at hk
    rw [hrun, ← hk]
  · intro h1 h2
    unfold generate_unique_s3_key at hk
    rw [check_headOfStore, h1] at hk
    simp only at hk
    rw [check_headOfStore, h2] at hk
    simp only at hk
    obtain ⟨i, _, hrq, _, hprev⟩ := counterLoop_store store key ts _ _ _ hk
    simp only [Except.ok.injEq] at hrq
    refine ⟨1 + i, by omega, by rw [hrun, hrq], ?_⟩
    intro c' h1c hc
    obtain ⟨j, rfl⟩ : ∃ j, c' = 1 + j := ⟨c' - 1, by omega⟩
    exact hprev j (by omega)

/-- Witness for claim C1, matching the spec's scenario: the store holds
`gtfs/GTFS_Carris.zip`; allocating that key returns the timestamped key,
which does not pre-exist. -/
theorem keyAllocator_returns_free_key_witness :
    check_s3_file_exists (headOfStore [("gtfs/GTFS_Carris.zip", "x")])
        (generate_unique_s3_key_run [("gtfs/GTFS_Carris.zip", "x")]
          "gtfs/GTFS_Carris.zip" "20240101_120000") = .ok false ∧
    generate_unique_s3_key_run [("gtfs/GTFS_Carris.zip", "x")]
        "gtfs/GTFS_Carris.zip" "20240101_120000" =
      "gtfs/GTFS_Carris_20240101_120000.zip" :=
  ⟨(keyAllocator_returns_free_key [("gtfs/GTFS_Carris.zip", "x")]
      "gtfs/GTFS_Carris.zip" "20240101_120000").1, by decide⟩

/-- Claim C6: when the desired key does not exist in the store, the
allocator returns it unchanged. -/
theorem keyAllocator_idempotent_no_collision (store : Store) (key ts : String)
    (h : storeHasKey store key = false) :
    generate_unique_s3_key_run store key ts = key := by
  unfold generate_unique_s3_key_run generate_unique_s3_key
  rw [check_headOfStore, h]

/-- Witness for claim C6: an empty store leaves the desired key unchanged. -/
theorem keyAllocator_idempotent_no_collision_witness :
    storeHasKey [] "gtfs/GTFS_Carris.zip" = false ∧
    generate_unique_s3_key_run [] "gtfs/GTFS_Carris.zip" "20240101_120000" =
      "gtfs/GTFS_Carris.zip" :=
  ⟨by decide, keyAllocator_idempotent_no_collision [] "gtfs/GTFS_Carris.zip"
    "20240101_120000" (by decide)⟩

/-- Claim C9: the existence check returns false exactly when the store
reports error code 404; success means true; every other error code is
re-raised, never interpreted as absence. -/
theorem existsCheck_false_only_on_404 (head : String → HeadResult) (key : String) :
    (check_s3_file_exists head key = .ok false ↔ head key = .clientError "404") ∧
    (head key = .ok → check_s3_file_exists head key = .ok true) ∧
    (∀ code, ¬ code = "404" → head key = .clientError code →
      check_s3_file_exists head key = .error code) := by
  refine ⟨⟨?_, ?_⟩, ?_, ?_⟩
  · intro h
    cases hh : head key with
    | ok => simp [check_s3_file_exists, hh] at h
    | clientError code =>
      by_cases hc : code = "404"
      · simp [hh, hc]
      · simp [check_s3_file_exists, hh, hc] at h
  · intro h
    simp [check_s3_file_exists, h]
  · intro h
    simp [check_s3_file_exists, h]
  · intro code hc h
    simp [check_s3_file_exists, h, hc]

/-- Witness for claim C9: a store whose `head_object` reports a 500 error;
the check neither succeeds nor reports absence, it propagates the code. -/
theorem existsCheck_false_only_on_404_witness :
    ¬ ("500" : String) = "404" ∧
    check_s3_file_exists (fun _ => .clientError "500") "gtfs/GTFS_Carris.zip" =
      .error "500" :=
  ⟨by decide,
    (existsCheck_false_only_on_404 (fun _ => .clientError "500")
      "gtfs/GTFS_Carris.zip").2.2 "500" (by decide) rfl⟩

/-! ### Fingerprint claims -/

/-- Big-endian base-256 value of a byte list. -/
def bytesToNat : List Nat → Nat
  | [] => 0
  | b :: r => b * 256 ^ r.length + bytesToNat r

lemma bytesToNat_lt : ∀ l : List Nat, (∀ x ∈ l, x < 256) →
    bytesToNat l < 256 ^ l.length := by
  intro l
  induction l with
  | nil => intro _; simp [bytesToNat]
  | cons b r ih =>
    intro hb
    have hblt : b < 256 := hb b (List.mem_cons_self b r)
    have hrlt : bytesToNat r < 256 ^ r.length :=
      ih (fun x hx => hb x (List.mem_cons_of_mem b hx))
    calc bytesToNat (b :: r) = b * 256 ^ r.length + bytesToNat r := rfl
      _ < b * 256 ^ r.length + 256 ^ r.length := Nat.add_lt_add_left hrlt _
      _ = (b + 1) * 256 ^ r.length := by ring
      _ ≤ 256 * 256 ^ r.length := Nat.mul_le_mul_right _ (by omega)
      _ = 256 ^ (b :: r).length := by rw [List.length_cons, pow_succ]; ring

lemma bytesToNat_inj : ∀ x y : List Nat, x.length = y.length →
    (∀ a ∈ x, a < 256) → (∀ a ∈ y, a < 256) →
    bytesToNat x = bytesToNat y → x = y := by
  intro x
  induction x with
  | nil =>
    intro y hlen _ _ _
    cases y with
    | nil => rfl
    | cons b r => simp at hlen
  | cons a xs ih =>
    intro y hlen hx hy hval
    cases y with
    | nil => simp at hlen
    | cons b ys =>
      have hlxy : xs.length = ys.length := by
        simp only [List.length_cons] at hlen
        omega
      have hxs : ∀ v ∈ xs, v < 256 := fun v hv => hx v (List.mem_cons_of_mem a hv)
      have hys : ∀ v ∈ ys, v < 256 := fun v hv => hy v (List.mem_cons_of_mem b hv)
      have hxlt : bytesToNat xs < 256 ^ xs.length := bytesToNat_lt xs hxs
      have hylt : bytesToNat ys < 256 ^ ys.length := bytesToNat_lt ys hys
      have hval2 : a * 256 ^ xs.length + bytesToNat xs =
          b * 256 ^ xs.length + bytesToNat ys := by
        have : bytesToNat (a :: xs) = bytesToNat (b :: ys) := hval
        simp only [bytesToNat] at this
        rw [← hlxy] at this
        exact this
      have hK : 0 < 256 ^ xs.length := Nat.pos_pow_of_pos _ (by omega)
      have hab : a = b := by
        have hda : (a * 256 ^ xs.length + bytesToNat xs) / 256 ^ xs.length = a := by
          rw [Nat.mul_comm a, Nat.mul_add_div hK, Nat.div_eq_of_lt hxlt]
          omega
        have hdb : (b * 256 ^ xs.length + bytesToNat ys) / 256 ^ xs.length = b := by
          rw [Nat.mul_comm b, Nat.mul_add_div hK, Nat.div_eq_of_lt (hlxy ▸ hylt)]
          omega
        rw [← hda, ← hdb, hval2]
      have hrest : bytesToNat xs = bytesToNat ys := by
        rw [hab] at hval2
        exact Nat.add_left_cancel hval2
      rw [hab, ih ys hlxy hxs hys hrest]

lemma wordBytes_lt (w : Nat) : ∀ x ∈ wordBytes w, x < 256 := by
  intro x hx
  simp [wordBytes] at hx
  rcases hx with rfl | rfl | rfl | rfl <;> exact Nat.mod_lt _ (by norm_num)

lemma sha256bytes_lt (msg : List Byte) : ∀ x ∈ sha256bytes msg, x < 256 := by
  intro x hx
  unfold sha256bytes at hx
  simp only [List.mem_append] at hx
  rcases hx with (((((((h | h) | h) | h) | h) | h) | h) | h) <;>
    exact wordBytes_lt _ _ h

lemma sha256bytes_length (msg : List Byte) : (sha256bytes msg).length = 32 := by
  unfold sha256bytes wordBytes
  simp

lemma joinHex_length : ∀ l : List Nat, ((l.map byteHex).join).length = 2 * l.length := by
  intro l
  induction l with
  | nil => rfl
  | cons b t ih => simp [byteHex] at ih ⊢; omega

/-- Claim C7, counterexample to the collision-freedom direction: digests
have a fixed length, so the digest function cannot be injective on the
infinitely many byte sequences (pigeonhole); the claimed equivalence
`digest b1 = digest b2 ↔ b1 = b2` is therefore false. -/
theorem fingerprint_collision_freedom_false :
    ¬ (∀ b1 b2 : List Byte, calculate_file_hash b1 = calculate_file_hash b2 ↔ b1 = b2) := by
  intro hall
  have hinj : Function.Injective calculate_file_hash := fun x y h => (hall x y).mp h
  have hinj2 : Function.Injective sha256bytes := by
    intro x y h
    apply hinj
    unfold calculate_file_hash
    rw [h]
  have hF : ∀ n : Fin (256 ^ 32 + 1),
      bytesToNat (sha256bytes (List.replicate n.val 0)) < 256 ^ 32 := by
    intro n
    have h1 := bytesToNat_lt (sha256bytes (List.replicate n.val 0)) (sha256bytes_lt _)
    rw [sha256bytes_length] at h1
    exact h1
  have hinjF : Function.Injective
      (fun n : Fin (256 ^ 32 + 1) =>
        (⟨bytesToNat (sha256bytes (List.replicate n.val 0)), hF n⟩ : Fin (256 ^ 32))) := by
    intro m n h
    simp only [Fin.mk.injEq] at h
    have hlists := bytesToNat_inj _ _
      (by rw [sha256bytes_length, sha256bytes_length])
      (sha256bytes_lt _) (sha256bytes_lt _) h
    have hrep := hinj2 hlists
    have hlen := congrArg List.length hrep
    simp only [List.length_replicate] at hlen
    exact Fin.ext hlen
  have hcard := Fintype.card_le_of_injective _ hinjF
  rw [Fintype.card_fin, Fintype.card_fin] at hcard
  exact Nat.not_succ_le_self _ hcard

/-- Claim C7 as amended: the digest is a pure, deterministic, total
function of the byte sequence (including the empty one), equal inputs give
equal digests, and every digest is a fixed-length (64-character) string;
the converse direction (collision-freedom) is an assumption about SHA-256,
not a theorem, since a fixed-length digest cannot be injective. -/
theorem fingerprint_deterministic_total (b b1 b2 : List Byte) :
    calculate_file_hash b = calculate_file_hash b ∧
    (b1 = b2 → calculate_file_hash b1 = calculate_file_hash b2) ∧
    (calculate_file_hash b).length = 64 := by
  refine ⟨rfl, fun h => by rw [h], ?_⟩
  show (String.mk ((sha256bytes b).map byteHex).join).length = 64
  have hlen : ((sha256bytes b).map byteHex).join.length = 2 * (sha256bytes b).length :=
    joinHex_length _
  rw [String.length, hlen, sha256bytes_length]

/-- Witness for claim C7's amended statement at the empty byte sequence. -/
theorem fingerprint_deterministic_total_witness :
    calculate_file_hash [] = calculate_file_hash [] ∧
    (calculate_file_hash []).length = 64 :=
  ⟨(fingerprint_deterministic_total [] [] []).1,
   (fingerprint_deterministic_total [] [] []).2.2⟩

/-! ### Orchestrator claims -/

/-- Claim C8: configuration validation fails before any network or store
activity (empty trace), with exit code 1, when the bucket or the URL is
missing, or a custom endpoint is set without both credentials. -/
theorem config_validation_fails_fast (env : Env) (w : World)
    (h : env.config.s3BucketName = "" ∨
      (¬ env.config.s3EndpointUrl = "" ∧
        (env.config.s3AccessKeyId = "" ∨ env.config.s3SecretAccessKey = "")) ∨
      env.config.gtfsUrl = "") :
    mainRun env w = (w, [], 1) := by
  unfold mainRun
  by_cases h1 : env.config.s3BucketName = ""
  · rw [if_pos h1]
  · rw [if_neg h1]
    by_cases h2 : ¬ env.config.s3EndpointUrl = "" ∧
        ¬ (¬ env.config.s3AccessKeyId = "" ∧ ¬ env.config.s3SecretAccessKey = "")
    · rw [if_pos h2]
    · rw [if_neg h2]
      have h3 : env.config.gtfsUrl = "" := by
        rcases h with hb | ⟨he, hk⟩ | hu
        · exact absurd hb h1
        · refine absurd ⟨he, fun hak => ?_⟩ h2
          rcases hk with hcase | hcase
          · exact hak.1 hcase
          · exact hak.2 hcase
        · exact hu
      rw [if_pos h3]

/-- Witness for claim C8: an endpoint configured without a secret key makes
the run exit with code 1 before any call. -/
theorem config_validation_fails_fast_witness :
    mainRun
      { config := { gtfsUrl := "https://example.org/gtfs",
                    s3EndpointUrl := "https://s3.example.org",
                    s3AccessKeyId := "AKIA", s3SecretAccessKey := "",
                    s3BucketName := "bucket" },
        download := .failEarly, timestamp := "20240101_120000",
        getHashFails := false, uploadFails := false, saveHashFails := false }
      { store := [], localFiles := [] } =
    ({ store := [], localFiles := [] }, [], 1) :=
  config_validation_fails_fast _ _ (Or.inr (Or.inl ⟨by decide, Or.inr rfl⟩))

/-- The skip branch of `main`, fully computed: a matching remote
fingerprint yields a run that only reads, cleans up, and exits 0. -/
lemma mainRun_skip (env : Env) (w : World) (fn : String) (contents : List Byte)
    (hb : ¬ env.config.s3BucketName = "")
    (hcred : ¬ (¬ env.config.s3EndpointUrl = "" ∧
      ¬ (¬ env.config.s3AccessKeyId = "" ∧ ¬ env.config.s3SecretAccessKey = "")))
    (hu : ¬ env.config.gtfsUrl = "")
    (hd : env.download = .ok fn contents)
    (hg : env.getHashFails = false)
    (hr : get_remote_hash w.store (s3Pfx ++ "hash.txt") false =
      .ok (some (calculate_file_hash contents))) :
    mainRun env w =
      ({ store := w.store, localFiles := cleanup_local_file (fn :: w.localFiles) fn },
       [.fetch, .getObjectCall (s3Pfx ++ "hash.txt"), .removeLocal fn], 0) := by
  unfold mainRun
  rw [if_neg hb, if_neg hcred, if_neg hu, hd]
  simp only [hg, hr, if_true]

/-- Whenever the remote fingerprint read succeeds with a value other than
the local digest, the run enters the allocation and publishing steps:
`head_object` on the desired key and `upload_file` on the allocated key
are both invoked, whatever faults follow. -/
lemma mainRun_publish_upload_called (env : Env) (w : World) (fn : String)
    (contents : List Byte) (r : Option String)
    (hb : ¬ env.config.s3BucketName = "")
    (hcred : ¬ (¬ env.config.s3EndpointUrl = "" ∧
      ¬ (¬ env.config.s3AccessKeyId = "" ∧ ¬ env.config.s3SecretAccessKey = "")))
    (hu : ¬ env.config.gtfsUrl = "")
    (hd : env.download = .ok fn contents)
    (hg : env.getHashFails = false)
    (hr : get_remote_hash w.store (s3Pfx ++ "hash.txt") false = .ok r)
    (hne : ¬ r = some (calculate_file_hash contents)) :
    Event.headObjectCall (s3Pfx ++ fn) ∈ (mainRun env w).2.1 ∧
    Event.uploadCall (generate_unique_s3_key_run w.store (s3Pfx ++ fn) env.timestamp)
      ∈ (mainRun env w).2.1 := by
  unfold mainRun
  rw [if_neg hb, if_neg hcred, if_neg hu, hd]
  simp only [hg, hr]
  by_cases hup : env.uploadFails <;> by_cases hsv : env.saveHashFails <;>
    simp [hup, hsv, hne]

/-- Claim C3: when the remote fingerprint object exists and matches the
local digest, the run performs no store write (neither `upload_file` nor
`put_object` is invoked, and the store is unchanged) and exits 0. -/
theorem skip_when_fingerprint_matches (env : Env) (w : World) (fn : String)
    (contents : List Byte)
    (hb : ¬ env.config.s3BucketName = "")
    (hcred : ¬ (¬ env.config.s3EndpointUrl = "" ∧
      ¬ (¬ env.config.s3AccessKeyId = "" ∧ ¬ env.config.s3SecretAccessKey = "")))
    (hu : ¬ env.config.gtfsUrl = "")
    (hd : env.download = .ok fn contents)
    (hg : env.getHashFails = false)
    (hr : get_remote_hash w.store (s3Pfx ++ "hash.txt") false =
      .ok (some (calculate_file_hash contents))) :
    (mainRun env w).1.store = w.store ∧
    (∀ k, Event.uploadCall k ∉ (mainRun env w).2.1) ∧
    (∀ k, Event.putHashCall k ∉ (mainRun env w).2.1) ∧
    (mainRun env w).2.2 = 0 := by
  rw [mainRun_skip env w fn contents hb hcred hu hd hg hr]
  refine ⟨rfl, ?_, ?_, rfl⟩ <;> intro k <;> simp

/-- Claim C2: in every run the fingerprint write (`put_object` on
`hash.txt`) is only ever invoked after the artifact upload has completed
successfully — whenever the trace contains a fingerprint-write call, the
trace splits around a successful upload completion with every
fingerprint-write call after it; and when the artifact upload fails, the
store (in particular the fingerprint object) is left unmodified and the
run exits 1. -/
theorem fingerprint_write_after_artifact_write (env : Env) (w : World) :
    (∀ k, Event.putHashCall k ∈ (mainRun env w).2.1 →
      ∃ pre post k', (mainRun env w).2.1 = pre ++ Event.uploadDone k' :: post ∧
        Event.putHashCall k ∈ post ∧ ∀ k'', Event.putHashCall k'' ∉ pre) ∧
    (env.uploadFails = true →
      (mainRun env w).1.store = w.store ∧
      ∀ k, Event.uploadCall k ∈ (mainRun env w).2.1 → (mainRun env w).2.2 = 1) := by
  by_cases h1 : env.config.s3BucketName = ""
  · constructor <;> (unfold mainRun; rw [if_pos h1]) <;> simp
  by_cases h2 : ¬ env.config.s3EndpointUrl = "" ∧
      ¬ (¬ env.config.s3AccessKeyId = "" ∧ ¬ env.config.s3SecretAccessKey = "")
  · constructor <;> (unfold mainRun; rw [if_neg h1, if_pos h2]) <;> simp
  by_cases h3 : env.config.gtfsUrl = ""
  · constructor <;> (unfold mainRun; rw [if_neg h1, if_neg h2, if_pos h3]) <;> simp
  unfold mainRun
  rw [if_neg h1, if_neg h2, if_neg h3]
  rcases hdl : env.download with ⟨fn, contents⟩ | _ | fn
  rotate_left
  · constructor <;> simp
  · constructor <;> simp
  dsimp only
  by_cases hg : env.getHashFails
  · have hgT : env.getHashFails = true := by simpa using hg
    constructor <;> simp [hgT, get_remote_hash]
  have hgF : env.getHashFails = false := by simpa using hg
  rw [hgF]
  rcases hrm : get_remote_hash w.store (s3Pfx ++ "hash.txt") false with e | r <;> dsimp only
  · constructor <;> simp
  by_cases hskip : r = some (calculate_file_hash contents)
  · rw [if_pos hskip]
    constructor <;> simp
  rw [if_neg hskip]
  by_cases hup : env.uploadFails
  · have hupT : env.uploadFails = true := by simpa using hup
    rw [if_pos hupT]
    constructor <;> simp
  have hupF : env.uploadFails = false := by simpa using hup
  rw [hupF, if_neg Bool.false_ne_true]
  by_cases hsv : env.saveHashFails
  · have hsvT : env.saveHashFails = true := by simpa using hsv
    rw [if_pos hsvT]
    constructor
    · intro k hk
      refine ⟨[.fetch, .getObjectCall (s3Pfx ++ "hash.txt"),
          .headObjectCall (s3Pfx ++ fn),
          .uploadCall (generate_unique_s3_key_run w.store (s3Pfx ++ fn) env.timestamp)],
        [.putHashCall (s3Pfx ++ "hash.txt"), .removeLocal fn],
        generate_unique_s3_key_run w.store (s3Pfx ++ fn) env.timestamp,
        by simp, ?_, ?_⟩
      · simp at hk ⊢
        exact hk
      · intro k''
        simp
    · intro hupT
      exact Bool.noConfusion hupT
  have hsvF : env.saveHashFails = false := by simpa using hsv
  rw [hsvF, if_neg Bool.false_ne_true]
  constructor
  · intro k hk
    refine ⟨[.fetch, .getObjectCall (s3Pfx ++ "hash.txt"),
        .headObjectCall (s3Pfx ++ fn),
        .uploadCall (generate_unique_s3_key_run w.store (s3Pfx ++ fn) env.timestamp)],
      [.putHashCall (s3Pfx ++ "hash.txt"), .putHashDone (s3Pfx ++ "hash.txt"),
        .removeLocal fn],
      generate_unique_s3_key_run w.store (s3Pfx ++ fn) env.timestamp,
      by simp, ?_, ?_⟩
    · simp at hk ⊢
      exact hk
    · intro k''
      simp
  · intro hupT
    exact Bool.noConfusion hupT

/-- A valid configuration used by the concrete scenario runs below. -/
def cfgOk : Config :=
  { gtfsUrl := "https://gateway.carris.pt/gateway/gtfs/api/v2.8/GTFS",
    s3EndpointUrl := "", s3AccessKeyId := "", s3SecretAccessKey := "",
    s3BucketName := "bucket" }

/-- An empty initial world: empty store, empty working directory. -/
def world0 : World := { store := [], localFiles := [] }

/-- A run environment with a fault-free download of the default file. -/
def envOkDl : Env :=
  { config := cfgOk, download := .ok "GTFS_Carris.zip" [],
    timestamp := "20240101_120000", getHashFails := false,
    uploadFails := false, saveHashFails := false }

/-- A run environment whose artifact upload fails. -/
def envUpFail : Env :=
  { config := cfgOk, download := .ok "GTFS_Carris.zip" [0],
    timestamp := "20240101_120000", getHashFails := false,
    uploadFails := true, saveHashFails := false }

/-- Witness for claim C2: with an injected upload failure on a changed
feed, the store is left unmodified and the run exits 1. -/
theorem fingerprint_write_after_artifact_write_witness :
    (mainRun envUpFail world0).1.store = world0.store ∧
    (mainRun envUpFail world0).2.2 = 1 :=
  ⟨((fingerprint_write_after_artifact_write envUpFail world0).2 rfl).1,
   ((fingerprint_write_after_artifact_write envUpFail world0).2 rfl).2
     "gtfs/GTFS_Carris.zip" (by decide)⟩

/-- Witness for claim C3: a store whose fingerprint object equals the
digest of the downloaded bytes makes the run exit 0 (the skip path). -/
theorem skip_when_fingerprint_matches_witness :
    (mainRun envOkDl
      { store := [("gtfs/hash.txt", calculate_file_hash [])], localFiles := [] }).2.2 = 0 :=
  (skip_when_fingerprint_matches envOkDl
    { store := [("gtfs/hash.txt", calculate_file_hash [])], localFiles := [] }
    "GTFS_Carris.zip" [] (by decide) (by decide) (by decide) rfl rfl (by rfl)).2.2.2

/-- Claim C5: an absent remote fingerprint object is handled as "no prior
state" — the read yields `none` rather than an error — and the run
proceeds to key allocation and publishing: the allocation's existence
check and the artifact upload are both invoked. -/
theorem absent_fingerprint_proceeds_to_publish (env : Env) (w : World)
    (fn : String) (contents : List Byte)
    (hb : ¬ env.config.s3BucketName = "")
    (hcred : ¬ (¬ env.config.s3EndpointUrl = "" ∧
      ¬ (¬ env.config.s3AccessKeyId = "" ∧ ¬ env.config.s3SecretAccessKey = "")))
    (hu : ¬ env.config.gtfsUrl = "")
    (hd : env.download = .ok fn contents)
    (hg : env.getHashFails = false)
    (habs : lookupObj w.store (s3Pfx ++ "hash.txt") = none) :
    get_remote_hash w.store (s3Pfx ++ "hash.txt") false = .ok none ∧
    Event.headObjectCall (s3Pfx ++ fn) ∈ (mainRun env w).2.1 ∧
    Event.uploadCall (generate_unique_s3_key_run w.store (s3Pfx ++ fn) env.timestamp)
      ∈ (mainRun env w).2.1 := by
  have hget : get_remote_hash w.store (s3Pfx ++ "hash.txt") false = .ok none := by
    simp [get_remote_hash, habs]
  have hcalled := mainRun_publish_upload_called env w fn contents none
    hb hcred hu hd hg hget (by simp)
  exact ⟨hget, hcalled.1, hcalled.2⟩

/-- Witness for claim C5: against an empty store, the run reaches
allocation and invokes the upload. -/
theorem absent_fingerprint_proceeds_to_publish_witness :
    Event.uploadCall (generate_unique_s3_key_run world0.store
        (s3Pfx ++ "GTFS_Carris.zip") "20240101_120000") ∈ (mainRun envOkDl world0).2.1 :=
  (absent_fingerprint_proceeds_to_publish envOkDl world0 "GTFS_Carris.zip" []
    (by decide) (by decide) (by decide) rfl rfl (by decide)).2.2

/-- Claim C10: the remote fingerprint's text is stripped of leading and
trailing whitespace before the comparison: with the fingerprint object
holding `v`, the run skips (never invokes the upload) exactly when the
stripped `v` equals the local digest. -/
theorem skip_iff_stripped_fingerprint_matches (env : Env) (w : World)
    (fn : String) (contents : List Byte) (v : String)
    (hb : ¬ env.config.s3BucketName = "")
    (hcred : ¬ (¬ env.config.s3EndpointUrl = "" ∧
      ¬ (¬ env.config.s3AccessKeyId = "" ∧ ¬ env.config.s3SecretAccessKey = "")))
    (hu : ¬ env.config.gtfsUrl = "")
    (hd : env.download = .ok fn contents)
    (hg : env.getHashFails = false)
    (hv : lookupObj w.store (s3Pfx ++ "hash.txt") = some v) :
    get_remote_hash w.store (s3Pfx ++ "hash.txt") false = .ok (some (pyStrip v)) ∧
    ((∀ k, Event.uploadCall k ∉ (mainRun env w).2.1) ↔
      pyStrip v = calculate_file_hash contents) := by
  have hget : get_remote_hash w.store (s3Pfx ++ "hash.txt") false =
      .ok (some (pyStrip v)) := by
    simp [get_remote_hash, hv]
  refine ⟨hget, ?_, ?_⟩
  · intro hno
    by_contra hne
    have hcalled := mainRun_publish_upload_called env w fn contents (some (pyStrip v))
      hb hcred hu hd hg hget (by simpa using hne)
    exact hno _ hcalled.2
  · intro heq
    have hskip := mainRun_skip env w fn contents hb hcred hu hd hg
      (by rw [← heq]; exact hget)
    rw [hskip]
    intro k
    simp

/-- Witness for claim C10: a stored fingerprint with a trailing newline;
the read strips it before the comparison. -/
theorem skip_iff_stripped_fingerprint_matches_witness :
    get_remote_hash [("gtfs/hash.txt", "deadbeef\n")] (s3Pfx ++ "hash.txt") false =
      .ok (some (pyStrip "deadbeef\n")) :=
  (skip_iff_stripped_fingerprint_matches envOkDl
    { store := [("gtfs/hash.txt", "deadbeef\n")], localFiles := [] }
    "GTFS_Carris.zip" [] "deadbeef\n"
    (by decide) (by decide) (by decide) rfl rfl (by decide)).1

/-- The run environment of the mid-download-failure scenario: valid
configuration, download raising after the output file was created. -/
def envMidFail : Env :=
  { config := cfgOk, download := .failAfterCreate LOCAL_GTFS_FILE,
    timestamp := "20240101_120000", getHashFails := false,
    uploadFails := false, saveHashFails := false }

/-- Claim C4 exhibit (code bug): when the download fails while streaming
the response body — after `open(filename, 'wb')` has created the local
file, before `download_gtfs_file` returns — the exception reaches `main`'s
`except` block with `local_file` unassigned, so the
`if 'local_file' in locals()` guard skips the cleanup and the process
exits 1 with the transient file still present. -/
theorem local_file_left_after_mid_download_failure :
    (mainRun envMidFail world0).2.2 = 1 ∧
    LOCAL_GTFS_FILE ∈ (mainRun envMidFail world0).1.localFiles := by
  constructor <;> decide
